import Mathlib

/-!
Verification development for the uber_analysis scraper repository.

The Python and embedded JavaScript fragments of the repository are shallowly
embedded as executable Lean definitions over lists of characters.  Machine
floating point values that only ever carry short decimal numerals scraped from
page text are modelled as rationals; the regular expressions of the source are
translated into deterministic scanning functions (with explicit bounded
backtracking where the original pattern needs it), each accompanied by a
comment quoting the original pattern.
-/

namespace UberAnalysis

/-! ### Character and list-of-character utilities -/

/-- ASCII lower-casing, as applied by the IGNORECASE regex flags of the
source (only ASCII letters occur in the patterns involved). -/
def lowerCh (c : Char) : Char :=
  match c with
  | 'A' => 'a' | 'B' => 'b' | 'C' => 'c' | 'D' => 'd' | 'E' => 'e'
  | 'F' => 'f' | 'G' => 'g' | 'H' => 'h' | 'I' => 'i' | 'J' => 'j'
  | 'K' => 'k' | 'L' => 'l' | 'M' => 'm' | 'N' => 'n' | 'O' => 'o'
  | 'P' => 'p' | 'Q' => 'q' | 'R' => 'r' | 'S' => 's' | 'T' => 't'
  | 'U' => 'u' | 'V' => 'v' | 'W' => 'w' | 'X' => 'x' | 'Y' => 'y'
  | 'Z' => 'z' | c => c

/-- Whitespace class: the characters matched by regex \s and stripped by
Python str.strip and JavaScript String.trim on the ASCII fragment. -/
def isWsCh (c : Char) : Bool :=
  c = ' ' || c = '\t' || c = '\n' || c = '\r' || c = '\x0b' || c = '\x0c'

/-- Numeric value of an ASCII decimal digit. -/
def digitVal (c : Char) : Option ℕ :=
  if c = '0' then some 0 else if c = '1' then some 1
  else if c = '2' then some 2 else if c = '3' then some 3
  else if c = '4' then some 4 else if c = '5' then some 5
  else if c = '6' then some 6 else if c = '7' then some 7
  else if c = '8' then some 8 else if c = '9' then some 9
  else none

/-- ASCII decimal digit, the regex \d class. -/
def isDigitCh (c : Char) : Bool :=
  (digitVal c).isSome

/-- The character class [\d\.] used by the fare regexes. -/
def isNumDot (c : Char) : Bool :=
  isDigitCh c || c = '.'

/-- Match the pattern (given in lower case) case-insensitively as a literal
at the head of the input; return the remaining input on success. -/
def litCI : List Char → List Char → Option (List Char)
  | [], s => some s
  | _ :: _, [] => none
  | p :: ps, c :: cs => if lowerCh c = p then litCI ps cs else none

/-- Match the pattern case-sensitively as a literal at the head of the
input; return the remaining input on success. -/
def litCS : List Char → List Char → Option (List Char)
  | [], s => some s
  | _ :: _, [] => none
  | p :: ps, c :: cs => if c = p then litCS ps cs else none

/-- Case-insensitive substring test (pattern given in lower case). -/
def containsCI (p : List Char) : List Char → Bool
  | [] => (litCI p []).isSome
  | c :: t => (litCI p (c :: t)).isSome || containsCI p t

/-- Case-sensitive substring test, JavaScript String.includes. -/
def containsCS (p : List Char) : List Char → Bool
  | [] => (litCS p []).isSome
  | c :: t => (litCS p (c :: t)).isSome || containsCS p t

/-- Unanchored regex search: try the position matcher at the leftmost
position first, like re.search and String.match. -/
def reSearch (f : List Char → Option α) : List Char → Option α
  | [] => f []
  | c :: t => (f (c :: t)).orElse (fun _ => reSearch f t)

/-- Python str.strip with no argument (JavaScript trim behaves the same on
the characters occurring here): drop whitespace from both ends. -/
def pyStrip (l : List Char) : List Char :=
  ((l.dropWhile isWsCh).reverse.dropWhile isWsCh).reverse

/-- Numeric value of a list of ASCII digits, most significant first. -/
def digitsVal (l : List Char) : ℕ :=
  l.foldl (fun a c => a * 10 + (digitVal c).getD 0) 0

/-- Count of digits after the decimal point of a decimal numeral. -/
def decPlaces (l : List Char) : ℕ :=
  ((l.dropWhile (fun c => c != '.')).drop 1).length

/-- Model of Python float() on the unsigned decimal fragment: strings of
digits with at most one point and at least one digit (exactly the strings
the fare regex groups [\d\.]+ can produce that float() accepts).  Returns
none where float() raises ValueError.  Exponent forms never arise from
those groups and are not modelled. -/
def pyFloatDec (l : List Char) : Option ℚ :=
  if l.all isNumDot && l.any isDigitCh && l.count '.' ≤ 1 then
    let ip := l.takeWhile (fun c => c != '.')
    let fp := (l.dropWhile (fun c => c != '.')).drop 1
    some ((digitsVal ip : ℚ) + (digitsVal fp : ℚ) / ((10 : ℚ) ^ fp.length))
  else none

/-- Model of Python float() including an optional sign, as applied to the
cleaned fare-item value strings. -/
def pyFloat (l : List Char) : Option ℚ :=
  match l with
  | '-' :: t => (pyFloatDec t).map Neg.neg
  | '+' :: t => pyFloatDec t
  | t => pyFloatDec t

/-! ### Fare Text Parser (parse_fare_line, uber_scraper_weekloop_2026-02-15.py)

The distance regex is ([\d\.]+)\s*mile\s*×\s*\$([\d\.]+)/mile with
re.IGNORECASE, the time regex is ([\d\.]+)\s*min(?:ute)?\s*×\s*\$([\d\.]+)/min
with re.IGNORECASE.  In both patterns every greedy piece is followed by a
literal outside its character class, so maximal munch coincides with the
backtracking semantics and the scanners below are exact translations. -/

/-- After the first group of the distance pattern: \s*mile\s*×\s*\$ ;
returns the input position following the dollar sign. -/
def mileAfterNum (s : List Char) : Option (List Char) :=
  match litCI "mile".data (s.dropWhile isWsCh) with
  | none => none
  | some r =>
    match r.dropWhile isWsCh with
    | '×' :: r2 =>
      match r2.dropWhile isWsCh with
      | '$' :: r3 => some r3
      | _ => none
    | _ => none

/-- The tail of the distance pattern: ([\d\.]+)/mile ; returns the second
group. -/
def mileTail (s : List Char) : Option (List Char) :=
  match s.takeWhile isNumDot with
  | [] => none
  | g2 =>
    match litCI "/mile".data (s.dropWhile isNumDot) with
    | some _ => some g2
    | none => none

/-- Anchored attempt of the whole distance pattern at the current position;
returns the two groups. -/
def matchMileAt (s : List Char) : Option (List Char × List Char) :=
  match s.takeWhile isNumDot with
  | [] => none
  | g1 =>
    match mileAfterNum (s.dropWhile isNumDot) with
    | none => none
    | some r => (mileTail r).map (fun g2 => (g1, g2))

/-- re.search of the distance pattern. -/
def searchMile : List Char → Option (List Char × List Char) :=
  reSearch matchMileAt

/-- After the first group of the time pattern: \s*min(?:ute)?\s*×\s*\$ . -/
def minAfterNum (s : List Char) : Option (List Char) :=
  match litCI "min".data (s.dropWhile isWsCh) with
  | none => none
  | some r =>
    let r1 := match litCI "ute".data r with
      | some r2 => r2
      | none => r
    match r1.dropWhile isWsCh with
    | '×' :: r2 =>
      match r2.dropWhile isWsCh with
      | '$' :: r3 => some r3
      | _ => none
    | _ => none

/-- The tail of the time pattern: ([\d\.]+)/min . -/
def minTail (s : List Char) : Option (List Char) :=
  match s.takeWhile isNumDot with
  | [] => none
  | g2 =>
    match litCI "/min".data (s.dropWhile isNumDot) with
    | some _ => some g2
    | none => none

/-- Anchored attempt of the whole time pattern at the current position. -/
def matchMinuteAt (s : List Char) : Option (List Char × List Char) :=
  match s.takeWhile isNumDot with
  | [] => none
  | g1 =>
    match minAfterNum (s.dropWhile isNumDot) with
    | none => none
    | some r => (minTail r).map (fun g2 => (g1, g2))

/-- re.search of the time pattern. -/
def searchMinute : List Char → Option (List Char × List Char) :=
  reSearch matchMinuteAt

/-- The dictionary returned by parse_fare_line: a key is present exactly
when the corresponding Option is some. -/
structure FareResult where
  miles : Option ℚ := none
  rate_per_mile : Option ℚ := none
  minutes : Option ℚ := none
  rate_per_minute : Option ℚ := none
deriving DecidableEq, Repr

/-- Second half of parse_fare_line: the minute_match block.  An Except
error models an uncaught ValueError escaping from float(). -/
def minuteStep (res : FareResult) (t : List Char) : Except Unit FareResult :=
  match searchMinute t with
  | some g =>
    match pyFloatDec g.1, pyFloatDec g.2 with
    | some m, some r =>
      .ok { res with minutes := some m, rate_per_minute := some r }
    | _, _ => .error ()
  | none => .ok res

/-- parse_fare_line(item_label, text) from
uber_scraper_weekloop_2026-02-15.py.  The label is ignored by the source
body as well. -/
def parse_fare_line (item_label text : String) : Except Unit FareResult :=
  let t := text.data
  match searchMile t with
  | some g =>
    match pyFloatDec g.1, pyFloatDec g.2 with
    | some m, some r =>
      minuteStep { miles := some m, rate_per_mile := some r } t
    | _, _ => .error ()
  | none => minuteStep {} t

/-! ### Per-trip fare aggregation (scrape_trip_details loop,
uber_scraper_weekloop_2026-02-15.py lines 385-408) -/

/-- The mutable per-trip accumulators of scrape_trip_details. -/
structure TripAgg where
  fare_breakdown : List (String × Option ℚ × String) := []
  total_fare : ℚ := 0
  distance_miles : Option ℚ := none
  total_trip_minutes : Option ℚ := none
  rate_per_mile : Option ℚ := none
  rate_per_minute : Option ℚ := none
deriving DecidableEq

/-- Python dict assignment: replace the first binding of the key in place,
else append (insertion order preserved, like dict). -/
def updAssoc (l : List (String × Option ℚ × String)) (k : String)
    (v : Option ℚ × String) : List (String × Option ℚ × String) :=
  match l with
  | [] => [(k, v)]
  | (k0, v0) :: t => if k0 = k then (k, v) :: t else (k0, v0) :: updAssoc t k v

/-- Python truthiness of an optional float: present and nonzero. -/
def truthyOpt : Option ℚ → Bool
  | none => false
  | some v => v != 0

/-- One iteration of the for lbl, val_str, detail loop of
scrape_trip_details: clean and convert the dollar value, record the
breakdown entry, accumulate the total, and fold in parse_fare_line.
float() errors on the value string are caught in the source (val = None);
errors escaping parse_fare_line are not. -/
def stepItem (st : TripAgg) (it : String × String × String) :
    Except Unit TripAgg :=
  let val_clean := pyStrip ((it.2.1.data.filter (fun c => c != '$' && c != ',')))
  let val : Option ℚ := if val_clean = [] then none else
    match pyFloat val_clean with
    | some v => some v
    | none => none
  let st1 : TripAgg :=
    { st with
      fare_breakdown := updAssoc st.fare_breakdown it.1 (val, it.2.2),
      total_fare := st.total_fare + (val.getD 0) }
  match parse_fare_line it.1 it.2.2 with
  | .error e => .error e
  | .ok parsed =>
    .ok { st1 with
      distance_miles :=
        match parsed.miles with
        | some mv => some (st1.distance_miles.getD 0 + mv)
        | none => st1.distance_miles,
      total_trip_minutes :=
        match parsed.minutes with
        | some tv => some (st1.total_trip_minutes.getD 0 + tv)
        | none => st1.total_trip_minutes,
      rate_per_mile :=
        match parsed.rate_per_mile with
        | some rv =>
          if truthyOpt parsed.rate_per_mile
              && (st1.rate_per_mile = none || decide (0 < rv)) then some rv
          else st1.rate_per_mile
        | none => st1.rate_per_mile,
      rate_per_minute :=
        match parsed.rate_per_minute with
        | some rv =>
          if truthyOpt parsed.rate_per_minute
              && (st1.rate_per_minute = none || decide (0 < rv)) then some rv
          else st1.rate_per_minute
        | none => st1.rate_per_minute }

/-- The loop over zip(labels, values, details), threading the accumulators;
an exception aborts the remaining items. -/
def processItems : List (String × String × String) → TripAgg →
    Except Unit TripAgg
  | [], st => .ok st
  | it :: rest, st =>
    match stepItem st it with
    | .error e => .error e
    | .ok st2 => processItems rest st2

/-- The whole aggregation of one trip page, from the initial values of
scrape_trip_details. -/
def processItemsAll (its : List (String × String × String)) :
    Except Unit TripAgg :=
  processItems its {}

/-! ### Dedup ledger and scrape_trip_details
(uber_scraper_weekloop_2026-02-15.py) -/

/-- Python text-mode line iteration with universal newlines: lines are
separated by LF, CR LF, or lone CR; a trailing fragment without a
terminator is still a line. -/
def pyLinesAux : List Char → List Char → List (List Char)
  | [], acc => if acc.isEmpty then [] else [acc.reverse]
  | '\n' :: rest, acc => acc.reverse :: pyLinesAux rest []
  | '\r' :: '\n' :: rest, acc => acc.reverse :: pyLinesAux rest []
  | '\r' :: rest, acc => acc.reverse :: pyLinesAux rest []
  | c :: rest, acc => pyLinesAux rest (c :: acc)

/-- The lines of a file content. -/
def pyLines (l : List Char) : List (List Char) :=
  pyLinesAux l []

/-- fetch_visited: the stripped nonempty lines of the checkpoint file (the
Python set is modelled as the list of its insertions; only membership is
consumed). -/
def fetch_visited (file : List Char) : List (List Char) :=
  ((pyLines file).map pyStrip).filter (fun l => !l.isEmpty)

/-- append_visited: append the identifier plus a newline to the checkpoint
file. -/
def append_visited (file : List Char) (trip_id : List Char) : List Char :=
  file ++ trip_id ++ ['\n']

/-- Python str.split(sep) for a one-character separator (always at least
one piece). -/
def pySplitCh (sep : Char) : List Char → List Char → List (List Char)
  | [], acc => [acc.reverse]
  | c :: r, acc =>
    if c = sep then acc.reverse :: pySplitCh sep r [] else pySplitCh sep r (c :: acc)

/-- trip_id = trip_link.split("/")[-1].split("?")[0]. -/
def tripIdOf (link : List Char) : List Char :=
  ((pySplitCh '/' link []).getLastD []).takeWhile (fun c => c != '?')

/-- The text probes of one trip-detail page consumed by
scrape_trip_details; text_content results are optional. -/
structure DetailPage where
  dateElem : Option String := none
  pickupTime : Option String := none
  dropoffTime : Option String := none
  eventType : Option String := none
  pickupLoc : Option String := none
  dropoffLoc : Option String := none
  labels : List String := []
  values : List String := []
  details : List String := []
deriving DecidableEq

/-- One CSV row as written by append_trip_row. -/
structure WLRow where
  ride_id : List Char
  date_local : List Char
  pickup_time_local : List Char
  dropoff_time_local : List Char
  event_type : List Char
  distance_miles : Option ℚ
  total_trip_minutes : Option ℚ
  pickup_location : List Char
  dropoff_location : List Char
  fare_breakdown : List (String × Option ℚ × String)
  rate_per_mile : Option ℚ
  rate_per_minute : Option ℚ
  total_fare : ℚ
deriving DecidableEq

/-- The run state touched by scrape_trip_details: the in-memory visited
set (modelled as the list of its members), the CSV rows, and the
checkpoint file content. -/
structure RunState where
  visited : List (List Char)
  csv : List WLRow
  vfile : List Char
deriving DecidableEq

/-- Python zip of the three text-content lists. -/
def zip3 : List String → List String → List String →
    List (String × String × String)
  | a :: as, b :: bs, c :: cs => (a, b, c) :: zip3 as bs cs
  | _, _, _ => []

/-- The row built at the end of scrape_trip_details. -/
def mkWLRow (trip_id : List Char) (pd : DetailPage) (agg : TripAgg) : WLRow :=
  { ride_id := trip_id
    date_local := pyStrip ((pd.dateElem.getD "").data)
    pickup_time_local := pyStrip ((pd.pickupTime.getD "").data)
    dropoff_time_local := pyStrip ((pd.dropoffTime.getD "").data)
    event_type := pyStrip ((pd.eventType.getD "").data)
    distance_miles := agg.distance_miles
    total_trip_minutes := agg.total_trip_minutes
    pickup_location := pyStrip ((pd.pickupLoc.getD "").data)
    dropoff_location := pyStrip ((pd.dropoffLoc.getD "").data)
    fare_breakdown := agg.fare_breakdown
    rate_per_mile := agg.rate_per_mile
    rate_per_minute := agg.rate_per_minute
    total_fare := agg.total_fare }

/-- scrape_trip_details: early return when the identifier is in the
in-memory visited set; otherwise aggregate the fare items, append one CSV
row, then append one checkpoint line.  The in-memory set is never
modified by the source, so the returned state carries it through
unchanged.  An error models an exception escaping to the caller (which
catches it per trip); in that case neither file has been touched. -/
def scrape_trip_details (trip_link : List Char) (pd : DetailPage)
    (st : RunState) : Except Unit RunState :=
  let trip_id := tripIdOf trip_link
  if trip_id ∈ st.visited then .ok st
  else
    match processItemsAll (zip3 pd.labels pd.values pd.details) with
    | .error e => .error e
    | .ok agg =>
      .ok { visited := st.visited,
            csv := st.csv ++ [mkWLRow trip_id pd agg],
            vfile := append_visited st.vfile trip_id }

/-! ### Trip Detail Extractor (extract_trip_data page.evaluate script,
identical in uber_scraper_merged.py and uber_scraper_main.py)

The JavaScript regexes have no i flag except where noted, so matching is
case-sensitive; the dot excludes line terminators. -/

/-- The JS regex dot: any character except a line terminator. -/
def dotOk (c : Char) : Bool :=
  c != '\n' && c != '\r'

/-- The regex class [A-Z]. -/
def isUpperCh (c : Char) : Bool :=
  ("ABCDEFGHIJKLMNOPQRSTUVWXYZ".data).contains c

/-- Greedy alternatives for \s* : all ways to drop a whitespace run,
longest first (regex preference order). -/
def wsAlts (t : List Char) : List (List Char) :=
  let n := (t.takeWhile isWsCh).length
  (List.range (n + 1)).map (fun k => t.drop (n - k))

/-- Anchored \$(\d+\.?\d*) : returns the group and the rest of the input.
Each greedy digit run is followed by a character outside its class, so
maximal munch is exact. -/
def dollarAmtAt : List Char → Option (List Char × List Char)
  | '$' :: t =>
    match t.takeWhile isDigitCh with
    | [] => none
    | d1 =>
      match t.dropWhile isDigitCh with
      | '.' :: r2 =>
        some (d1 ++ '.' :: r2.takeWhile isDigitCh, r2.dropWhile isDigitCh)
      | r => some (d1, r)
  | _ => none

/-- Anchored (\d+)\s*min\s*(\d+)\s*sec (the duration pattern). -/
def durAt (s : List Char) : Option (List Char × List Char) :=
  match s.takeWhile isDigitCh with
  | [] => none
  | g1 =>
    match litCS "min".data ((s.dropWhile isDigitCh).dropWhile isWsCh) with
    | none => none
    | some r =>
      match (r.dropWhile isWsCh).takeWhile isDigitCh with
      | [] => none
      | g2 =>
        match litCS "sec".data
            (((r.dropWhile isWsCh).dropWhile isDigitCh).dropWhile isWsCh) with
        | some _ => some (g1, g2)
        | none => none

/-- Full-string test of ^\d+\.\d+\s*mi$ (the distance element). -/
def distFull (t : List Char) : Bool :=
  match t.takeWhile isDigitCh with
  | [] => false
  | _ =>
    match t.dropWhile isDigitCh with
    | '.' :: r2 =>
      match r2.takeWhile isDigitCh with
      | [] => false
      | _ =>
        match litCS "mi".data ((r2.dropWhile isDigitCh).dropWhile isWsCh) with
        | some [] => true
        | _ => false
    | _ => false

/-- Full-string test of ^\d+\s*points?\s*earned$ . -/
def pointsFull (t : List Char) : Bool :=
  match t.takeWhile isDigitCh with
  | [] => false
  | _ =>
    match litCS "point".data ((t.dropWhile isDigitCh).dropWhile isWsCh) with
    | none => false
    | some r =>
      let r1 := match r with
        | 's' :: r2 => r2
        | _ => r
      match litCS "earned".data (r1.dropWhile isWsCh) with
      | some [] => true
      | _ => false

/-- Anchored \$(\d+\.\d+)\/mile and \$(\d+\.\d+)\/min (global rate
fallbacks scanned over the whole page text). -/
def perUnitAt (unit : List Char) : List Char → Option (List Char)
  | '$' :: t =>
    match t.takeWhile isDigitCh with
    | [] => none
    | d1 =>
      match t.dropWhile isDigitCh with
      | '.' :: r2 =>
        match r2.takeWhile isDigitCh with
        | [] => none
        | d2 =>
          match litCS ('/' :: unit) (r2.dropWhile isDigitCh) with
          | some _ => some (d1 ++ '.' :: d2)
          | none => none
      | _ => none
  | _ => none

/-- Test of ^Fare\s*\$ . -/
def fareStartTest (t : List Char) : Bool :=
  match litCS "Fare".data t with
  | none => false
  | some r =>
    match r.dropWhile isWsCh with
    | '$' :: _ => true
    | _ => false

/-- Anchored Fare\s*\$(\d+\.?\d*) . -/
def fareAmtAt (s : List Char) : Option (List Char) :=
  match litCS "Fare".data s with
  | none => none
  | some r => (dollarAmtAt (r.dropWhile isWsCh)).map (fun g => g.1)

/-- Anchored LITERAL[^-]*-\$(\d+\.?\d*) (region/airport/insurance fee
sweeps; the insurance literal is matched case-insensitively). -/
def feeDashAt (litp : List Char) (ci : Bool) (s : List Char) :
    Option (List Char) :=
  match (if ci then litCI litp s else litCS litp s) with
  | none => none
  | some r =>
    match r.dropWhile (fun c => c != '-') with
    | '-' :: r2 => (dollarAmtAt r2).map (fun g => g.1)
    | _ => none

/-- Anchored LITERAL[^$]*\$(\d+\.?\d*) (Uber service fee and total
customer fare sweeps). -/
def feeDollarAt (litp : List Char) (s : List Char) : Option (List Char) :=
  match litCS litp s with
  | none => none
  | some r => (dollarAmtAt (r.dropWhile (fun c => c != '$'))).map (fun g => g.1)

/-- Anchored \$(\d+\.?\d*)\s*tip included (tip fallback). -/
def tipIncAt (s : List Char) : Option (List Char) :=
  match dollarAmtAt s with
  | none => none
  | some g =>
    match litCS "tip included".data (g.2.dropWhile isWsCh) with
    | some _ => some g.1
    | none => none

/-- The \s*• separator step of the header pattern (the \s* is followed by
the bullet, so maximal munch is exact there). -/
def afterBullet (s : List Char) : Option (List Char) :=
  match s.dropWhile isWsCh with
  | '•' :: r => some r
  | _ => none

/-- Anchored attempt of (.+?)\s*•\s*(.+?)\s*•\s*(.+) at one position, with
the lazy groups enumerated shortest-first and the post-bullet \s* greedy
with backtracking, in regex preference order. -/
def headerAt (s : List Char) : Option (List Char × List Char × List Char) :=
  (List.range s.length).findSome? fun i =>
    let g1 := s.take (i + 1)
    if g1.all dotOk then
      match afterBullet (s.drop (i + 1)) with
      | none => none
      | some r1 =>
        (wsAlts r1).findSome? fun t2 =>
          (List.range t2.length).findSome? fun j =>
            let g2 := t2.take (j + 1)
            if g2.all dotOk then
              match afterBullet (t2.drop (j + 1)) with
              | none => none
              | some r2 =>
                (wsAlts r2).findSome? fun t3 =>
                  match t3.takeWhile dotOk with
                  | [] => none
                  | g3 => some (g1, g2, g3)
            else none
    else none

/-- Anchored attempt of ,\s*([^,]+),\s*[A-Z]{2},\s*US (city from pickup
address), with greedy pieces enumerated in regex preference order. -/
def cityAt : List Char → Option (List Char)
  | ',' :: t =>
    (wsAlts t).findSome? fun t1 =>
      let gMax := (t1.takeWhile (fun c => c != ',')).length
      (List.range gMax).findSome? fun k =>
        let g := t1.take (gMax - k)
        match t1.drop (gMax - k) with
        | ',' :: t2 =>
          (wsAlts t2).findSome? fun t3 =>
            match t3 with
            | a :: b :: (',' :: t5) =>
              if isUpperCh a && isUpperCh b then
                (wsAlts t5).findSome? fun t6 =>
                  match litCS "US".data t6 with
                  | some _ => some g
                  | none => none
              else none
            | _ => none
        | _ => none
  | _ => none

/-- First-seen-order deduplication, JS indexOf(v) === i filter. -/
def dedupAux : List (List Char) → List (List Char) → List (List Char)
  | [], _ => []
  | x :: t, seen =>
    if seen.contains x then dedupAux t seen else x :: dedupAux t (x :: seen)

/-- Deduplicate keeping first occurrences. -/
def dedupKeepFirst (l : List (List Char)) : List (List Char) :=
  dedupAux l []

/-- JS String.replace with a string pattern: replace the first occurrence
only. -/
def replaceFirst (pat rep : List Char) : List Char → List Char
  | [] => []
  | c :: t =>
    match litCS pat (c :: t) with
    | some r => rep ++ r
    | none => c :: replaceFirst pat rep t

/-- First run of digits anywhere in the text, the group of match(/(\d+)/). -/
def firstDigitRun (t : List Char) : Option (List Char) :=
  reSearch
    (fun s =>
      match s.takeWhile isDigitCh with
      | [] => none
      | g => some g) t

/-- Two-decimal rendering of a nonnegative rational, modelling JS
Number.toFixed(2); the floating-point rounding of the source is modelled
as exact half-up rounding of the rational value. -/
def fmtFixed2 (q : ℚ) : List Char :=
  let n := (round (q * 100) : ℤ).toNat
  Nat.toDigits 10 (n / 100) ++
    '.' :: (if n % 100 < 10 then '0' :: Nat.toDigits 10 (n % 100)
            else Nat.toDigits 10 (n % 100))

/-- The DOM probes consumed by the extractor script: the first header
span text, the texts of childless elements in document order, the whole
body text, the li texts in document order, and the first heading text. -/
structure TripPage where
  headerText : List Char := []
  leafTexts : List (List Char) := []
  bodyText : List Char := []
  listItems : List (List Char) := []
  headingText : Option (List Char) := none
deriving DecidableEq

/-- The mutable variables of the li classification sweep. -/
structure ItemsAcc where
  base : List Char := "0".data
  distancePay : List Char := "0".data
  timePay : List Char := "0".data
  surge : List Char := "0".data
  promotion : List Char := "0".data
  minFare : List Char := "0".data
  waitTime : List Char := "0".data
  fare : List Char := "0".data
  totalEarnings : List Char := "0".data
  tip : List Char := "0".data
deriving DecidableEq

/-- One iteration of items.forEach: the keyword rules are not mutually
exclusive and are applied in source order, later items overwriting
earlier values for the same field. -/
def itemStep (acc : ItemsAcc) (text : List Char) : ItemsAcc :=
  let value := ((reSearch dollarAmtAt text).map (fun g => g.1)).getD "0".data
  let acc := if containsCS "Base".data text && !containsCS "Fare".data text then
      { acc with base := value } else acc
  let acc := if containsCS "Distance".data text && containsCS "mile".data text then
      { acc with distancePay := value } else acc
  let acc := if containsCS "Time".data text && containsCS "minute".data text then
      { acc with timePay := value } else acc
  let acc := if containsCS "Surge".data text then { acc with surge := value } else acc
  let acc := if containsCS "Promotion".data text then
      { acc with promotion := value } else acc
  let acc := if containsCS "Minimum Fare".data text then
      { acc with minFare := value } else acc
  let acc := if containsCS "Wait Time".data text then
      { acc with waitTime := value } else acc
  let acc := if fareStartTest text
      || (containsCS "Fare".data text && !containsCS "customer".data text
          && !containsCS "Minimum".data text) then
      match reSearch fareAmtAt text with
      | some g => { acc with fare := g }
      | none => acc
    else acc
  let acc := if containsCS "Your earnings".data text
      && !containsCS "Total".data text then
      { acc with totalEarnings := value } else acc
  let acc := if containsCS "Tip".data text && !containsCS "included".data text then
      { acc with tip := value } else acc
  acc

/-- The record returned by the extractor script (all fields are strings
in the source as well). -/
structure ExtractRec where
  date : List Char
  time : List Char
  rideType : List Char
  distancePay : List Char
  timePay : List Char
  surge : List Char
  promotion : List Char
  base : List Char
  fare : List Char
  tip : List Char
  minFare : List Char
  waitTime : List Char
  regionFee : List Char
  airportFee : List Char
  insuranceFee : List Char
  uberFee : List Char
  points : List Char
  city : List Char
  pickup : List Char
  dropoff : List Char
  distance : List Char
  durationMin : List Char
  perMile : List Char
  perMin : List Char
  totalEarnings : List Char
  customerFare : List Char
deriving DecidableEq

/-- extract_trip_data: the whole evaluate script as a total function of
the page probes.  Every step is a total match with an explicit default,
mirroring the null guards of the script. -/
def extract_trip_data (p : TripPage) : ExtractRec :=
  let headerM := reSearch headerAt p.headerText
  let rideType := match headerM with
    | some g => pyStrip g.1
    | none => []
  let date := match headerM with
    | some g => pyStrip g.2.1
    | none => []
  let time := match headerM with
    | some g => pyStrip g.2.2
    | none => []
  let duration := match p.leafTexts.find?
      (fun t => containsCS "min".data t && containsCS "sec".data t) with
    | some t => pyStrip t
    | none => []
  let distance := match p.leafTexts.find? distFull with
    | some t => pyStrip (replaceFirst " mi".data [] t)
    | none => []
  let addresses := dedupKeepFirst
    ((p.leafTexts.filter (fun t => containsCS ", US".data t)).map pyStrip)
  let pickup := addresses.getD 0 []
  let dropoff := addresses.getD 1 []
  let city := match reSearch cityAt pickup with
    | some g => pyStrip g
    | none => []
  let points := match p.leafTexts.find? pointsFull with
    | some t => (firstDigitRun t).getD []
    | none => "0".data
  let perMile := (reSearch (perUnitAt "mile".data) p.bodyText).getD "0".data
  let perMin := (reSearch (perUnitAt "min".data) p.bodyText).getD "0".data
  let ia := p.listItems.foldl itemStep {}
  let regionFee :=
    (reSearch (feeDashAt "Region or City Fee".data false) p.bodyText).getD "0".data
  let airportFee :=
    (reSearch (feeDashAt "Airport Fee".data false) p.bodyText).getD "0".data
  let insuranceFee :=
    (reSearch (feeDashAt "insurance and operational".data true) p.bodyText).getD "0".data
  let uberFee :=
    (reSearch (feeDollarAt "Uber Service Fee".data) p.bodyText).getD "0".data
  let customerFare :=
    (reSearch (feeDollarAt "Total customer fare".data) p.bodyText).getD "0".data
  let totalEarnings := match p.headingText with
    | some h =>
      if containsCS "$".data h then
        match reSearch dollarAmtAt h with
        | some g => g.1
        | none => ia.totalEarnings
      else ia.totalEarnings
    | none => ia.totalEarnings
  let tip := if ia.tip = "0".data then
      match reSearch tipIncAt p.bodyText with
      | some g => g
      | none => ia.tip
    else ia.tip
  let durationMin := match reSearch durAt duration with
    | some g => fmtFixed2 ((digitsVal g.1 : ℚ) + (digitsVal g.2 : ℚ) / 60)
    | none => "0".data
  { date := date, time := time, rideType := rideType,
    distancePay := ia.distancePay, timePay := ia.timePay, surge := ia.surge,
    promotion := ia.promotion, base := ia.base, fare := ia.fare, tip := tip,
    minFare := ia.minFare, waitTime := ia.waitTime, regionFee := regionFee,
    airportFee := airportFee, insuranceFee := insuranceFee, uberFee := uberFee,
    points := points, city := city, pickup := pickup, dropoff := dropoff,
    distance := distance, durationMin := durationMin, perMile := perMile,
    perMin := perMin, totalEarnings := totalEarnings,
    customerFare := customerFare }

/-! ### CSV ledger (save_csv, HEADERS; identical in uber_scraper_merged.py
and uber_scraper_main.py).  The file is modelled as an optional list of
rows: none when the file does not exist. -/

/-- The HEADERS constant of the source. -/
def csvHEADERS : List String :=
  ["Date", "Time", "Ride Type", "Distance Pay", "Time Pay", "Surge", "Promotion",
   "Base", "Fare (subtotal)", "Tip", "Minimum Fare Supplement", "Wait Time Pay",
   "Region/City Fee", "Airport Fee", "Insurance & Operational Fee", "Uber Service Fee",
   "Points Earned", "City", "Pickup Address", "Dropoff Address", "Distance (mi)",
   "Duration (min)", "$/mile", "$/min", "Total Earnings", "Total Customer Fare"]

/-- Modelled from the spec, section 6: the fixed column order of the
persisted ledger, transcribed from the specification text for comparison
with the HEADERS constant of the source. -/
def specHeaderColumns : List String :=
  ["Date", "Time", "Ride Type", "Distance Pay", "Time Pay", "Surge", "Promotion",
   "Base", "Fare (subtotal)", "Tip", "Minimum Fare Supplement", "Wait Time Pay",
   "Region/City Fee", "Airport Fee", "Insurance & Operational Fee", "Uber Service Fee",
   "Points Earned", "City", "Pickup Address", "Dropoff Address", "Distance (mi)",
   "Duration (min)", "$/mile", "$/min", "Total Earnings", "Total Customer Fare"]

/-- The writerow payload for one trip dict, in the column order of
save_csv. -/
def saveCsvRow (t : ExtractRec) : List String :=
  [String.mk t.date, String.mk t.time, String.mk t.rideType,
   String.mk t.distancePay, String.mk t.timePay, String.mk t.surge,
   String.mk t.promotion, String.mk t.base, String.mk t.fare,
   String.mk t.tip, String.mk t.minFare, String.mk t.waitTime,
   String.mk t.regionFee, String.mk t.airportFee, String.mk t.insuranceFee,
   String.mk t.uberFee, String.mk t.points, String.mk t.city,
   String.mk t.pickup, String.mk t.dropoff, String.mk t.distance,
   String.mk t.durationMin, String.mk t.perMile, String.mk t.perMin,
   String.mk t.totalEarnings, String.mk t.customerFare]

/-- save_csv(trips, path): early return on an empty batch; the header row
is written only when the file did not exist; every write appends. -/
def save_csv (trips : List ExtractRec) (file : Option (List (List String))) :
    Option (List (List String)) :=
  if trips.isEmpty then file
  else
    match file with
    | none => some (csvHEADERS :: trips.map saveCsvRow)
    | some rows => some (rows ++ trips.map saveCsvRow)

/-- A sequence of save_csv calls against the same path, across any number
of process runs. -/
def runSaves (batches : List (List ExtractRec))
    (file : Option (List (List String))) : Option (List (List String)) :=
  batches.foldl (fun f b => save_csv b f) file

/-! ### Backward week loop (main of uber_scraper_merged.py and
uber_scraper_weekloop_test.py).  A run is abstracted by the sequence of
per-week trip counts the successive views would yield; the loop body
loads a week, applies the empty-streak rule, and moves to the previous
week.  The returned list is the weeks actually loaded, together with the
final streak counter. -/

/-- One backward walk from a given streak value. -/
def weekLoopAux : List ℕ → ℕ → List ℕ × ℕ
  | [], streak => ([], streak)
  | w :: ws, streak =>
    if w = 0 then
      if streak + 1 ≥ 3 then ([w], streak + 1)
      else
        let r := weekLoopAux ws (streak + 1)
        (w :: r.1, r.2)
    else
      let r := weekLoopAux ws 0
      (w :: r.1, r.2)

/-- The weeks loaded by a full backward run (empty_streak starts at 0). -/
def visitedWeeks (weeks : List ℕ) : List ℕ :=
  (weekLoopAux weeks 0).1

/-! ### Forward week loop (main of uber_scraper_main.py).  Week cursors
are day ordinals of the respective Mondays; now is the ordinal of the
present date; trips gives the number of trip URLs each week view yields.
The loop checks the cursor against the present date at the top of each
iteration and again right after advancing by 7 days.  The fuel argument
only bounds the recursion; forwardLoop supplies enough for the walk to
reach the present date. -/

/-- The forward walk; returns the week cursors actually loaded. -/
def forwardLoopAux (trips : ℤ → ℕ) (now : ℤ) : ℕ → ℤ → ℕ → List ℤ
  | 0, _, _ => []
  | fuel + 1, wd, streak =>
    if wd > now then []
    else
      let streak2 := if trips wd = 0 then streak + 1 else 0
      if trips wd = 0 && streak2 ≥ 3 then [wd]
      else if wd + 7 > now then [wd]
      else wd :: forwardLoopAux trips now fuel (wd + 7) streak2

/-- The forward walk from a start cursor. -/
def forwardLoop (trips : ℤ → ℕ) (now wd : ℤ) (streak : ℕ) : List ℤ :=
  forwardLoopAux trips now ((now + 7 - wd).toNat + 1) wd streak

/-! ### Dates (Python datetime as consumed by the source).  Dates are
proleptic Gregorian year-month-day triples; day ordinals follow
date.toordinal (ordinal 1 is January 1 of year 1, a Monday). -/

/-- Gregorian leap year test. -/
def isLeap (y : ℕ) : Bool :=
  y % 4 = 0 && (y % 100 != 0 || y % 400 = 0)

/-- Days in a month. -/
def daysInMonth (y m : ℕ) : ℕ :=
  if m = 2 then (if isLeap y then 29 else 28)
  else if m = 4 || m = 6 || m = 9 || m = 11 then 30
  else 31

/-- A calendar date. -/
structure PyDate where
  year : ℕ
  month : ℕ
  day : ℕ
deriving DecidableEq

/-- The following day. -/
def nextDay (d : PyDate) : PyDate :=
  if d.day < daysInMonth d.year d.month then
    { d with day := d.day + 1 }
  else if d.month < 12 then
    { d with month := d.month + 1, day := 1 }
  else
    { year := d.year + 1, month := 1, day := 1 }

/-- date + timedelta(days = n). -/
def addDaysPy (n : ℕ) (d : PyDate) : PyDate :=
  match n with
  | 0 => d
  | k + 1 => addDaysPy k (nextDay d)

/-- strftime %b month abbreviations (C locale). -/
def monthAbbr (m : ℕ) : String :=
  match m with
  | 1 => "Jan" | 2 => "Feb" | 3 => "Mar" | 4 => "Apr" | 5 => "May" | 6 => "Jun"
  | 7 => "Jul" | 8 => "Aug" | 9 => "Sep" | 10 => "Oct" | 11 => "Nov" | 12 => "Dec"
  | _ => ""

/-- Decimal rendering of a natural number. -/
def natToStr (n : ℕ) : String :=
  String.mk (Nat.toDigits 10 n)

/-- format_week_range(monday) of uber_scraper_main.py: the f-string
monday.strftime %b, monday.day, monday.year, an en dash, and the same for
monday + 7 days. -/
def format_week_range (monday : PyDate) : String :=
  let e := addDaysPy 7 monday
  monthAbbr monday.month ++ " " ++ natToStr monday.day ++ ", " ++
    natToStr monday.year ++ " – " ++ monthAbbr e.month ++ " " ++
    natToStr e.day ++ ", " ++ natToStr e.year

/-- Modelled from the spec: the displayed range string
Mon D, YYYY en dash Mon D, YYYY for a pair of dates (inclusive Monday,
exclusive following Monday), transcribed from the specification for
comparison with format_week_range. -/
def specRangeString (a b : PyDate) : String :=
  (monthAbbr a.month ++ " " ++ natToStr a.day ++ ", " ++ natToStr a.year)
    ++ " – " ++
    (monthAbbr b.month ++ " " ++ natToStr b.day ++ ", " ++ natToStr b.year)

/-- Days before January 1 of the given year, per date.toordinal. -/
def daysBeforeYear (y : ℕ) : ℕ :=
  365 * (y - 1) + (y - 1) / 4 - (y - 1) / 100 + (y - 1) / 400

/-- Days before the first of the given month within a year. -/
def daysBeforeMonth (y m : ℕ) : ℕ :=
  ((List.range (m - 1)).map (fun k => daysInMonth y (k + 1))).sum

/-- date.toordinal as an integer. -/
def toordinal (d : PyDate) : ℤ :=
  (daysBeforeYear d.year + daysBeforeMonth d.year d.month + d.day : ℕ)

/-- date.weekday on ordinals: Monday is 0 (ordinal 1 is a Monday). -/
def pyWeekday (n : ℤ) : ℤ :=
  (n + 6) % 7

/-- get_monday of uber_scraper_main.py on ordinals:
d - timedelta(days = d.weekday()). -/
def get_monday (n : ℤ) : ℤ :=
  n - pyWeekday n

/-! ### Start-date prompt (main of uber_scraper_main.py) and the strptime
fragment it uses.  Each format string is compiled to the token list the
CPython _strptime module derives from it: whitespace in the format
matches \s+, %b matches a month abbreviation case-insensitively, %d and
%m match one or two digits with range alternations, %Y exactly four
digits, %y two digits (69 splitting the century), and other characters
match literally; the compiled regex must consume the entire input. -/

/-- Tokens of a compiled strptime format. -/
inductive DTok
  | lit (c : Char)
  | ws
  | monB
  | dayD
  | monM
  | yr4
  | yr2
deriving DecidableEq

/-- A captured directive value. -/
inductive TVal
  | nothing
  | setY (n : ℕ)
  | setM (n : ℕ)
  | setD (n : ℕ)
deriving DecidableEq

/-- The partially filled date of a strptime parse. -/
structure StVals where
  y : Option ℕ := none
  m : Option ℕ := none
  d : Option ℕ := none
deriving DecidableEq

/-- Apply a captured value. -/
def applyTVal (st : StVals) : TVal → StVals
  | .nothing => st
  | .setY n => { st with y := some n }
  | .setM n => { st with m := some n }
  | .setD n => { st with d := some n }

/-- The month abbreviations in the alternation order the _strptime
module compiles (calendar order; all have length three). -/
def monthNames : List (ℕ × List Char) :=
  [(1, "jan".data), (2, "feb".data), (3, "mar".data), (4, "apr".data),
   (5, "may".data), (6, "jun".data), (7, "jul".data), (8, "aug".data),
   (9, "sep".data), (10, "oct".data), (11, "nov".data), (12, "dec".data)]

/-- The parses a token admits at the head of the input, as pairs of
captured value and remaining input, in regex preference order. -/
def tokAlts : DTok → List Char → List (TVal × List Char)
  | .lit c, s =>
    match s with
    | c0 :: r => if c0 = c then [(.nothing, r)] else []
    | [] => []
  | .ws, s =>
    let n := (s.takeWhile isWsCh).length
    (List.range n).map (fun k => (.nothing, s.drop (n - k)))
  | .monB, s =>
    monthNames.filterMap (fun p =>
      match litCI p.2 s with
      | some r => some (.setM p.1, r)
      | none => none)
  | .dayD, s =>
    -- the %d pattern 3[01]|[12]\d|0[1-9]|[1-9]
    (match s with
     | '3' :: c :: r =>
       if c = '0' || c = '1' then [(TVal.setD (digitsVal ['3', c]), r)] else []
     | _ => []) ++
    (match s with
     | a :: b :: r =>
       if (a = '1' || a = '2') && isDigitCh b then
         [(TVal.setD (digitsVal [a, b]), r)]
       else []
     | _ => []) ++
    (match s with
     | '0' :: b :: r =>
       if isDigitCh b && b != '0' then [(TVal.setD (digitsVal [b]), r)] else []
     | _ => []) ++
    (match s with
     | a :: r =>
       if isDigitCh a && a != '0' then [(TVal.setD (digitsVal [a]), r)] else []
     | _ => [])
  | .monM, s =>
    -- the %m pattern 1[0-2]|0[1-9]|[1-9]
    (match s with
     | '1' :: c :: r =>
       if c = '0' || c = '1' || c = '2' then
         [(TVal.setM (digitsVal ['1', c]), r)]
       else []
     | _ => []) ++
    (match s with
     | '0' :: b :: r =>
       if isDigitCh b && b != '0' then [(TVal.setM (digitsVal [b]), r)] else []
     | _ => []) ++
    (match s with
     | a :: r =>
       if isDigitCh a && a != '0' then [(TVal.setM (digitsVal [a]), r)] else []
     | _ => [])
  | .yr4, s =>
    match s with
    | a :: b :: c :: d :: r =>
      if isDigitCh a && isDigitCh b && isDigitCh c && isDigitCh d then
        [(.setY (digitsVal [a, b, c, d]), r)]
      else []
    | _ => []
  | .yr2, s =>
    match s with
    | a :: b :: r =>
      if isDigitCh a && isDigitCh b then
        let v := digitsVal [a, b]
        [(.setY (if v ≤ 68 then v + 2000 else v + 1900), r)]
      else []
    | _ => []

/-- Backtracking match of a token list against the whole input (the
_strptime module rejects unconverted trailing data). -/
def matchToks : List DTok → List Char → StVals → Option StVals
  | [], input, st => if input.isEmpty then some st else none
  | t :: ts, input, st =>
    (tokAlts t input).findSome? (fun a => matchToks ts a.2 (applyTVal st a.1))

/-- A compiled format: its tokens and whether it contains a year
directive. -/
structure FmtSpec where
  toks : List DTok
  hasYear : Bool

/-- The seven formats tried by the start-date prompt, in source order:
%b %d, %Y ; %b %d %Y ; %b %d ; %Y-%m-%d ; %m/%d/%Y ; %m/%d/%y ;
%m-%d-%Y . -/
def promptFormats : List FmtSpec :=
  [⟨[.monB, .ws, .dayD, .lit ',', .ws, .yr4], true⟩,
   ⟨[.monB, .ws, .dayD, .ws, .yr4], true⟩,
   ⟨[.monB, .ws, .dayD], false⟩,
   ⟨[.yr4, .lit '-', .monM, .lit '-', .dayD], true⟩,
   ⟨[.monM, .lit '/', .dayD, .lit '/', .yr4], true⟩,
   ⟨[.monM, .lit '/', .dayD, .lit '/', .yr2], true⟩,
   ⟨[.monM, .lit '-', .dayD, .lit '-', .yr4], true⟩]

/-- datetime.strptime for one format: regex match, defaults year 1900,
month 1, day 1, then datetime construction validates the day against the
month length and the year against MINYEAR. -/
def strptimeDate (toks : List DTok) (input : List Char) : Option PyDate :=
  match matchToks toks input {} with
  | none => none
  | some st =>
    let y := st.y.getD 1900
    let m := st.m.getD 1
    let d := st.d.getD 1
    if 1 ≤ y && 1 ≤ d && d ≤ daysInMonth y m then some ⟨y, m, d⟩ else none

/-- One loop iteration of the prompt: parse with the format and, when the
format carries no year directive, replace the year with the current one
(datetime.replace validates again). -/
def parseWithFmt (f : FmtSpec) (input : List Char) (nowYear : ℕ) :
    Option PyDate :=
  match strptimeDate f.toks input with
  | none => none
  | some dt =>
    if f.hasYear then some dt
    else if dt.day ≤ daysInMonth nowYear dt.month then
      some { dt with year := nowYear }
    else none

/-- The format loop: first format that parses wins. -/
def tryParseStart (input : List Char) (nowYear : ℕ) : Option PyDate :=
  promptFormats.findSome? (fun f => parseWithFmt f input nowYear)

/-- The whole prompt block: empty input means today; otherwise the input
is stripped and parsed, unparseable input falling back to today. -/
def startDate (inp : List Char) (now : PyDate) : PyDate :=
  if inp.isEmpty then now
  else
    match tryParseStart (pyStrip inp) now.year with
    | some d => d
    | none => now

/-- The cursor the navigation starts from: the chosen date snapped to the
Monday of its week by get_monday. -/
def startMonday (inp : List Char) (now : PyDate) : ℤ :=
  get_monday (toordinal (startDate inp now))

/-- The fixed middle part of a distance line item built from numerals m
and r: the text m mile × dollar r per mile is m ++ mileSepChunk ++ r ++
mileEndChunk. -/
def mileSepChunk : List Char := " mile × $".data

/-- The fixed tail of a distance line item. -/
def mileEndChunk : List Char := "/mile".data

/-! ## Helper lemmas -/

theorem orElse_none (f : Unit → Option α) : Option.orElse none f = f () := rfl

theorem orElse_some (a : α) (f : Unit → Option α) :
    Option.orElse (some a) f = some a := rfl

theorem reSearch_cons_some (f : List Char → Option α) (c : Char)
    (t : List Char) (x : α) (h : f (c :: t) = some x) :
    reSearch f (c :: t) = some x := by
  unfold reSearch
  rw [h]
  rfl

theorem takeWhile_append_cons (p : Char → Bool) (l : List Char) (c : Char)
    (r : List Char) (h : l.all p = true) (hc : p c = false) :
    (l ++ c :: r).takeWhile p = l := by
  induction l with
  | nil => simp [List.takeWhile, hc]
  | cons a t ih =>
    simp only [List.all_cons, Bool.and_eq_true] at h
    simp [List.takeWhile, h.1, ih h.2]

theorem dropWhile_append_cons (p : Char → Bool) (l : List Char) (c : Char)
    (r : List Char) (h : l.all p = true) (hc : p c = false) :
    (l ++ c :: r).dropWhile p = c :: r := by
  induction l with
  | nil => simp [List.dropWhile, hc]
  | cons a t ih =>
    simp only [List.all_cons, Bool.and_eq_true] at h
    simp [List.dropWhile, h.1, ih h.2]

theorem mem_of_mem_dropWhile (p : Char → Bool) (l : List Char) (c : Char)
    (h : c ∈ l.dropWhile p) : c ∈ l := by
  induction l with
  | nil => simpa using h
  | cons a t ih =>
    by_cases hp : p a
    · simp only [List.dropWhile, hp] at h
      exact List.mem_cons_of_mem a (ih h)
    · simpa [List.dropWhile, hp] using h

theorem mem_of_litCI (p s r : List Char) (h : litCI p s = some r) (x : Char)
    (hx : x ∈ p) : ∃ c ∈ s, lowerCh c = x := by
  induction p generalizing s with
  | nil => simp at hx
  | cons p0 ps ih =>
    cases s with
    | nil => simp [litCI] at h
    | cons c cs =>
      by_cases he : lowerCh c = p0
      · rcases List.mem_cons.mp hx with hx0 | hx1
        · exact ⟨c, List.mem_cons_self c cs, hx0 ▸ he⟩
        · simp only [litCI, he, if_pos] at h
          obtain ⟨c2, hc2, he2⟩ := ih cs h hx1
          exact ⟨c2, List.mem_cons_of_mem c hc2, he2⟩
      · simp [litCI, he] at h

theorem containsCI_of_litCI (p s r : List Char) (h : litCI p s = some r) :
    containsCI p s = true := by
  cases s with
  | nil => simp [containsCI, h]
  | cons c t => simp [containsCI, h]

theorem containsCI_dropWhile (p : List Char) (q : Char → Bool) (l : List Char)
    (h : containsCI p (l.dropWhile q) = true) : containsCI p l = true := by
  induction l with
  | nil => simpa using h
  | cons c t ih =>
    by_cases hq : q c
    · simp only [List.dropWhile, hq] at h
      simp [containsCI, ih h]
    · simpa [List.dropWhile, hq] using h

theorem minAfterNum_has_n (s r : List Char) (h : minAfterNum s = some r) :
    ∃ c ∈ s, lowerCh c = 'n' := by
  unfold minAfterNum at h
  cases hlit : litCI "min".data (s.dropWhile isWsCh) with
  | none => rw [hlit] at h; exact absurd h (by simp)
  | some r1 =>
    obtain ⟨c, hc, he⟩ := mem_of_litCI _ _ _ hlit 'n' (by decide)
    exact ⟨c, mem_of_mem_dropWhile _ _ _ hc, he⟩

theorem matchMinuteAt_has_n (s : List Char) (g : List Char × List Char)
    (h : matchMinuteAt s = some g) : ∃ c ∈ s, lowerCh c = 'n' := by
  unfold matchMinuteAt at h
  cases hm : minAfterNum (s.dropWhile isNumDot) with
  | none =>
    rw [hm] at h
    split at h <;> simp_all
  | some r =>
    obtain ⟨c, hc, he⟩ := minAfterNum_has_n _ _ hm
    exact ⟨c, mem_of_mem_dropWhile _ _ _ hc, he⟩

theorem searchMinute_eq_none (l : List Char)
    (h : ∀ c ∈ l, lowerCh c ≠ 'n') : searchMinute l = none := by
  induction l with
  | nil => rfl
  | cons c t ih =>
    have hm : matchMinuteAt (c :: t) = none := by
      cases hm : matchMinuteAt (c :: t) with
      | none => rfl
      | some g =>
        obtain ⟨c2, hc2, he2⟩ := matchMinuteAt_has_n _ _ hm
        exact absurd he2 (h c2 hc2)
    show Option.orElse (matchMinuteAt (c :: t)) (fun _ => reSearch matchMinuteAt t) = none
    rw [hm, orElse_none]
    exact ih (fun c2 hc2 => h c2 (List.mem_cons_of_mem c hc2))

theorem matchMileAt_contains (s : List Char) (g : List Char × List Char)
    (h : matchMileAt s = some g) : containsCI "mile".data s = true := by
  unfold matchMileAt at h
  cases hm : mileAfterNum (s.dropWhile isNumDot) with
  | none =>
    rw [hm] at h
    split at h <;> simp_all
  | some r =>
    unfold mileAfterNum at hm
    cases hlit : litCI "mile".data ((s.dropWhile isNumDot).dropWhile isWsCh) with
    | none => rw [hlit] at hm; exact absurd hm (by simp)
    | some r1 =>
      exact containsCI_dropWhile _ _ _
        (containsCI_dropWhile _ _ _ (containsCI_of_litCI _ _ _ hlit))

theorem searchMile_eq_none_of (l : List Char)
    (h : containsCI "mile".data l = false) : searchMile l = none := by
  induction l with
  | nil => rfl
  | cons c t ih =>
    have hsplit := h
    simp only [containsCI, Bool.or_eq_false_iff] at hsplit
    have hm : matchMileAt (c :: t) = none := by
      cases hm : matchMileAt (c :: t) with
      | none => rfl
      | some g =>
        have := matchMileAt_contains _ _ hm
        rw [this] at h
        simp [containsCI] at h
    show Option.orElse (matchMileAt (c :: t)) (fun _ => reSearch matchMileAt t) = none
    rw [hm, orElse_none]
    exact ih hsplit.2

theorem pyFloatDec_valid (l : List Char) (v : ℚ) (h : pyFloatDec l = some v) :
    l.all isNumDot = true ∧ l ≠ [] := by
  unfold pyFloatDec at h
  split at h
  · rename_i hcond
    simp only [Bool.and_eq_true] at hcond
    refine ⟨hcond.1.1, ?_⟩
    rintro rfl
    simp at hcond
  · exact absurd h (by simp)

theorem mileAfterNum_chunk (u : List Char) :
    mileAfterNum (mileSepChunk ++ u) = some u := rfl

theorem matchMileAt_mk (m r : List Char) (hm : m.all isNumDot = true)
    (hm0 : m ≠ []) (hr : r.all isNumDot = true) (hr0 : r ≠ []) :
    matchMileAt (m ++ (mileSepChunk ++ (r ++ mileEndChunk))) =
      some (m, r) := by
  have hsp : isNumDot ' ' = false := by decide
  have h1 : (m ++ (mileSepChunk ++ (r ++ mileEndChunk))).takeWhile isNumDot = m := by
    have he : mileSepChunk ++ (r ++ mileEndChunk) =
        ' ' :: ("mile × $".data ++ (r ++ mileEndChunk)) := rfl
    rw [he]
    exact takeWhile_append_cons _ _ _ _ hm hsp
  have h2 : (m ++ (mileSepChunk ++ (r ++ mileEndChunk))).dropWhile isNumDot =
      mileSepChunk ++ (r ++ mileEndChunk) := by
    conv_lhs =>
      rw [show mileSepChunk ++ (r ++ mileEndChunk) =
        ' ' :: ("mile × $".data ++ (r ++ mileEndChunk)) from rfl]
    rw [dropWhile_append_cons _ _ _ _ hm hsp]
    rfl
  have h3 : mileTail (r ++ mileEndChunk) = some r := by
    have hsl : isNumDot '/' = false := by decide
    have e1 : r ++ mileEndChunk = r ++ '/' :: "mile".data := rfl
    have h4 : (r ++ mileEndChunk).takeWhile isNumDot = r := by
      rw [e1]; exact takeWhile_append_cons _ _ _ _ hr hsl
    have h5 : (r ++ mileEndChunk).dropWhile isNumDot = '/' :: "mile".data := by
      rw [e1]; exact dropWhile_append_cons _ _ _ _ hr hsl
    unfold mileTail
    rw [h4, h5]
    obtain ⟨a, r', rfl⟩ := List.exists_cons_of_ne_nil hr0
    rfl
  obtain ⟨a, m', rfl⟩ := List.exists_cons_of_ne_nil hm0
  unfold matchMileAt
  rw [h1, h2, mileAfterNum_chunk]
  show Option.map (fun g2 => (a :: m', g2)) (mileTail (r ++ mileEndChunk)) =
    some (a :: m', r)
  rw [h3]
  rfl

theorem lowerCh_numDot_ne_n (c : Char) (h : isNumDot c = true) :
    lowerCh c ≠ 'n' := by
  unfold isNumDot isDigitCh digitVal at h
  simp only [Bool.or_eq_true, decide_eq_true_eq] at h
  rcases h with h | rfl
  · repeat' split at h
    all_goals
      first
        | (rename_i hc; subst hc; decide)
        | simp at h
  · decide

theorem searchMile_mk (m r : List Char) (hm : m.all isNumDot = true)
    (hm0 : m ≠ []) (hr : r.all isNumDot = true) (hr0 : r ≠ []) :
    searchMile (m ++ (mileSepChunk ++ (r ++ mileEndChunk))) =
      some (m, r) := by
  obtain ⟨a, m', rfl⟩ := List.exists_cons_of_ne_nil hm0
  have hmm := matchMileAt_mk (a :: m') r hm (by simp) hr hr0
  show reSearch matchMileAt (a :: (m' ++ (mileSepChunk ++ (r ++ mileEndChunk)))) =
    some (a :: m', r)
  exact reSearch_cons_some matchMileAt a _ _ hmm

theorem searchMinute_mk (m r : List Char) (hm : m.all isNumDot = true)
    (hr : r.all isNumDot = true) :
    searchMinute (m ++ (mileSepChunk ++ (r ++ mileEndChunk))) = none := by
  apply searchMinute_eq_none
  intro c hc
  have hsep : ∀ x ∈ mileSepChunk, lowerCh x ≠ 'n' := by decide
  have hendc : ∀ x ∈ mileEndChunk, lowerCh x ≠ 'n' := by decide
  rcases List.mem_append.mp hc with hcm | hrest
  · exact lowerCh_numDot_ne_n c (List.all_eq_true.mp hm c hcm)
  · rcases List.mem_append.mp hrest with hmid | hend
    · exact hsep c hmid
    · rcases List.mem_append.mp hend with hcr | htail
      · exact lowerCh_numDot_ne_n c (List.all_eq_true.mp hr c hcr)
      · exact hendc c htail

/-! ## Claim theorems -/

/-- C1: For nonnegative decimal numerals m and r of at most two decimal
places, parsing the line item text m mile × dollar r per mile yields
miles = m and rate_per_mile = r; an input without the literal unit mile
(matched case-insensitively, as the source regex does) never populates
the miles key; and an input matching neither pattern yields the empty
result and the parser does not raise. -/
theorem parse_fare_line_contract :
    (∀ (lbl : String) (m r : List Char) (vm vr : ℚ),
        pyFloatDec m = some vm → pyFloatDec r = some vr →
        decPlaces m ≤ 2 → decPlaces r ≤ 2 →
        parse_fare_line lbl
            (String.mk (m ++ (mileSepChunk ++ (r ++ mileEndChunk)))) =
          .ok { miles := some vm, rate_per_mile := some vr })
    ∧ (∀ (lbl t : String), containsCI "mile".data t.data = false →
        ∀ res, parse_fare_line lbl t = .ok res → res.miles = none)
    ∧ (∀ (lbl t : String), searchMile t.data = none →
        searchMinute t.data = none →
        parse_fare_line lbl t = .ok {}) := by
  refine ⟨?_, ?_, ?_⟩
  · intro lbl m r vm vr hm hr _ _
    obtain ⟨hma, hm0⟩ := pyFloatDec_valid m vm hm
    obtain ⟨hra, hr0⟩ := pyFloatDec_valid r vr hr
    show (match searchMile (m ++ (mileSepChunk ++ (r ++ mileEndChunk))) with
      | some g =>
        match pyFloatDec g.1, pyFloatDec g.2 with
        | some mv, some rv =>
          minuteStep { miles := some mv, rate_per_mile := some rv }
            (m ++ (mileSepChunk ++ (r ++ mileEndChunk)))
        | _, _ => Except.error ()
      | none => minuteStep {} (m ++ (mileSepChunk ++ (r ++ mileEndChunk)))) =
      Except.ok { miles := some vm, rate_per_mile := some vr }
    rw [searchMile_mk m r hma hm0 hra hr0]
    show (match pyFloatDec m, pyFloatDec r with
      | some mv, some rv =>
        minuteStep { miles := some mv, rate_per_mile := some rv }
          (m ++ (mileSepChunk ++ (r ++ mileEndChunk)))
      | _, _ => Except.error ()) =
      Except.ok { miles := some vm, rate_per_mile := some vr }
    rw [hm, hr]
    show minuteStep { miles := some vm, rate_per_mile := some vr }
        (m ++ (mileSepChunk ++ (r ++ mileEndChunk))) =
      Except.ok { miles := some vm, rate_per_mile := some vr }
    unfold minuteStep
    rw [searchMinute_mk m r hma hra]
  · intro lbl t hno res hok
    have hsmile := searchMile_eq_none_of t.data hno
    cases hsm : searchMinute t.data with
    | none =>
      simp only [parse_fare_line, minuteStep, hsmile, hsm] at hok
      cases hok
      rfl
    | some g =>
      cases h1 : pyFloatDec g.1 with
      | none => simp [parse_fare_line, minuteStep, hsmile, hsm, h1] at hok
      | some a =>
        cases h2 : pyFloatDec g.2 with
        | none => simp [parse_fare_line, minuteStep, hsmile, hsm, h1, h2] at hok
        | some b =>
          simp only [parse_fare_line, minuteStep, hsmile, hsm, h1, h2] at hok
          cases hok
          rfl
  · intro lbl t h1 h2
    simp only [parse_fare_line, minuteStep, h1, h2]

/-- C1 witness: the contract evaluated at the concrete numerals 1.25 and
0.99, at a string without the mile unit, and at a string matching
neither pattern. -/
theorem parse_fare_line_contract_check :
    parse_fare_line "Distance"
        (String.mk ("1.25".data ++ (mileSepChunk ++ ("0.99".data ++ mileEndChunk)))) =
      .ok { miles := some (5/4), rate_per_mile := some (99/100) }
    ∧ (∀ res, parse_fare_line "x" "no distance unit here" = .ok res →
        res.miles = none)
    ∧ parse_fare_line "x" "nothing" = .ok {} := by
  refine ⟨?_, ?_, ?_⟩
  · exact parse_fare_line_contract.1 "Distance" "1.25".data "0.99".data
      (5/4) (99/100)
      (by simp [pyFloatDec, digitsVal, isNumDot, isDigitCh, digitVal]; norm_num)
      (by simp [pyFloatDec, digitsVal, isNumDot, isDigitCh, digitVal]; norm_num)
      (by decide) (by decide)
  · exact parse_fare_line_contract.2.1 "x" "no distance unit here" (by decide)
  · exact parse_fare_line_contract.2.2 "x" "nothing" (by decide) (by decide)

theorem pyFloatDec_nonneg (l : List Char) (v : ℚ) (h : pyFloatDec l = some v) :
    0 ≤ v := by
  unfold pyFloatDec at h
  split at h
  · cases h
    positivity
  · exact absurd h (by simp)

theorem minuteStep_rate_nonneg (res : FareResult) (t : List Char)
    (p : FareResult) (h : minuteStep res t = .ok p)
    (hres : ∀ v, res.rate_per_minute = some v → 0 ≤ v) :
    (∀ v, p.rate_per_minute = some v → 0 ≤ v) ∧
      p.miles = res.miles ∧ p.rate_per_mile = res.rate_per_mile := by
  unfold minuteStep at h
  cases hsm : searchMinute t with
  | none =>
    simp only [hsm] at h
    cases h
    exact ⟨hres, rfl, rfl⟩
  | some g =>
    simp only [hsm] at h
    cases h1 : pyFloatDec g.1 with
    | none => simp [h1] at h
    | some a =>
      cases h2 : pyFloatDec g.2 with
      | none => simp [h1, h2] at h
      | some b =>
        simp only [h1, h2] at h
        cases h
        refine ⟨?_, rfl, rfl⟩
        intro v hv
        cases hv
        exact pyFloatDec_nonneg _ _ h2

theorem parse_rate_nonneg (lbl t : String) (p : FareResult)
    (h : parse_fare_line lbl t = .ok p) :
    (∀ v, p.rate_per_mile = some v → 0 ≤ v) ∧
      (∀ v, p.rate_per_minute = some v → 0 ≤ v) := by
  unfold parse_fare_line at h
  simp only [] at h
  cases hsm : searchMile t.data with
  | none =>
    simp only [hsm] at h
    obtain ⟨hmin, hmiles, hrate⟩ := minuteStep_rate_nonneg _ _ _ h (by simp)
    exact ⟨by rw [hrate]; simp, hmin⟩
  | some g =>
    simp only [hsm] at h
    cases h1 : pyFloatDec g.1 with
    | none => simp [h1] at h
    | some a =>
      cases h2 : pyFloatDec g.2 with
      | none => simp [h1, h2] at h
      | some b =>
        simp only [h1, h2] at h
        obtain ⟨hmin, hmiles, hrate⟩ := minuteStep_rate_nonneg _ _ _ h (by simp)
        refine ⟨?_, hmin⟩
        intro v hv
        rw [hrate] at hv
        simp only [Option.some.injEq] at hv
        exact hv ▸ pyFloatDec_nonneg _ _ h2

theorem stepItem_fields (st : TripAgg) (it : String × String × String)
    (p : FareResult) (h : parse_fare_line it.1 it.2.2 = .ok p) :
    ∃ st2, stepItem st it = .ok st2 ∧
      st2.distance_miles =
        (match p.miles with
         | some mv => some (st.distance_miles.getD 0 + mv)
         | none => st.distance_miles) ∧
      st2.total_trip_minutes =
        (match p.minutes with
         | some tv => some (st.total_trip_minutes.getD 0 + tv)
         | none => st.total_trip_minutes) ∧
      st2.rate_per_mile =
        (match p.rate_per_mile with
         | some rv =>
           if truthyOpt p.rate_per_mile
               && (st.rate_per_mile = none || decide (0 < rv)) then some rv
           else st.rate_per_mile
         | none => st.rate_per_mile) ∧
      st2.rate_per_minute =
        (match p.rate_per_minute with
         | some rv =>
           if truthyOpt p.rate_per_minute
               && (st.rate_per_minute = none || decide (0 < rv)) then some rv
           else st.rate_per_minute
         | none => st.rate_per_minute) := by
  unfold stepItem
  simp only [h]
  exact ⟨_, rfl, rfl, rfl, rfl, rfl⟩

/-- C2: When two line items of one trip both match the distance pattern
with miles 1.5 and 2.0, the aggregated distance_miles is 3.5 (summed)
and rate_per_mile is the second item rate whenever that rate is nonzero
(last nonzero match wins); the analogous statement holds for minutes and
rate_per_minute. -/
theorem fare_accumulation_last_nonzero :
    ∀ (l1 v1 d1 l2 v2 d2 : String) (p1 p2 : FareResult) (r1 r2 : ℚ),
      parse_fare_line l1 d1 = .ok p1 → parse_fare_line l2 d2 = .ok p2 →
      ((p1.miles = some (3/2) → p1.rate_per_mile = some r1 →
        p2.miles = some 2 → p2.rate_per_mile = some r2 → r2 ≠ 0 →
        ∃ agg, processItemsAll [(l1, v1, d1), (l2, v2, d2)] = .ok agg ∧
          agg.distance_miles = some (7/2) ∧ agg.rate_per_mile = some r2)
      ∧ (p1.minutes = some (3/2) → p1.rate_per_minute = some r1 →
        p2.minutes = some 2 → p2.rate_per_minute = some r2 → r2 ≠ 0 →
        ∃ agg, processItemsAll [(l1, v1, d1), (l2, v2, d2)] = .ok agg ∧
          agg.total_trip_minutes = some (7/2) ∧
          agg.rate_per_minute = some r2)) := by
  intro l1 v1 d1 l2 v2 d2 p1 p2 r1 r2 hp1 hp2
  obtain ⟨s1, hs1, hd1, ht1, hrm1, hrn1⟩ :=
    stepItem_fields ({} : TripAgg) (l1, v1, d1) p1 hp1
  obtain ⟨s2, hs2, hd2, ht2, hrm2, hrn2⟩ := stepItem_fields s1 (l2, v2, d2) p2 hp2
  have hrun : processItemsAll [(l1, v1, d1), (l2, v2, d2)] = .ok s2 := by
    unfold processItemsAll processItems
    rw [hs1]
    unfold processItems
    rw [hs2]
    rfl
  have hr2pos : p2.rate_per_mile = some r2 → r2 ≠ 0 → 0 < r2 := by
    intro hx hnz
    exact lt_of_le_of_ne ((parse_rate_nonneg _ _ _ hp2).1 r2 hx) (Ne.symm hnz)
  have hr2posMin : p2.rate_per_minute = some r2 → r2 ≠ 0 → 0 < r2 := by
    intro hx hnz
    exact lt_of_le_of_ne ((parse_rate_nonneg _ _ _ hp2).2 r2 hx) (Ne.symm hnz)
  constructor
  · intro hm1 hrate1 hm2 hrate2 hnz
    refine ⟨s2, hrun, ?_, ?_⟩
    · rw [hd2, hm2, hd1, hm1]
      simp only [Option.getD_some]
      norm_num
    · rw [hrm2, hrate2]
      have hcond : truthyOpt (some r2) = true := by
        simpa [truthyOpt] using hnz
      have hpos : decide (0 < r2) = true := decide_eq_true (hr2pos hrate2 hnz)
      simp [hcond, hpos]
  · intro hm1 hrate1 hm2 hrate2 hnz
    refine ⟨s2, hrun, ?_, ?_⟩
    · rw [ht2, hm2, ht1, hm1]
      simp only [Option.getD_some]
      norm_num
    · rw [hrn2, hrate2]
      have hcond : truthyOpt (some r2) = true := by
        simpa [truthyOpt] using hnz
      have hpos : decide (0 < r2) = true := decide_eq_true (hr2posMin hrate2 hnz)
      simp [hcond, hpos]

set_option maxHeartbeats 2000000 in
/-- C2 witness: two concrete distance items with miles 1.5 and 2 and a
nonzero second rate, and the analogous pair of time items. -/
theorem fare_accumulation_last_nonzero_check :
    (∃ agg, processItemsAll
        [("Distance", "$1.49", "1.5 mile × $0.99/mile"),
         ("Distance", "$2.02", "2 mile × $1.01/mile")] = .ok agg ∧
      agg.distance_miles = some (7/2) ∧ agg.rate_per_mile = some (101/100))
    ∧ (∃ agg, processItemsAll
        [("Time", "$1.49", "1.5 min × $0.20/min"),
         ("Time", "$2.02", "2 min × $0.10/min")] = .ok agg ∧
      agg.total_trip_minutes = some (7/2) ∧
      agg.rate_per_minute = some (1/10)) := by
  have h1 : parse_fare_line "Distance" "1.5 mile × $0.99/mile" =
      .ok { miles := some (3/2), rate_per_mile := some (99/100) } := by
    simp [parse_fare_line, searchMile, searchMinute, reSearch, matchMileAt,
      matchMinuteAt, mileAfterNum, minAfterNum, mileTail, minTail, litCI,
      lowerCh, isWsCh, isNumDot, isDigitCh, digitVal, pyFloatDec, digitsVal,
      minuteStep]
    norm_num
  have h2 : parse_fare_line "Distance" "2 mile × $1.01/mile" =
      .ok { miles := some 2, rate_per_mile := some (101/100) } := by
    simp [parse_fare_line, searchMile, searchMinute, reSearch, matchMileAt,
      matchMinuteAt, mileAfterNum, minAfterNum, mileTail, minTail, litCI,
      lowerCh, isWsCh, isNumDot, isDigitCh, digitVal, pyFloatDec, digitsVal,
      minuteStep]
    norm_num
  have h3 : parse_fare_line "Time" "1.5 min × $0.20/min" =
      .ok { minutes := some (3/2), rate_per_minute := some (1/5) } := by
    simp [parse_fare_line, searchMile, searchMinute, reSearch, matchMileAt,
      matchMinuteAt, mileAfterNum, minAfterNum, mileTail, minTail, litCI,
      lowerCh, isWsCh, isNumDot, isDigitCh, digitVal, pyFloatDec, digitsVal,
      minuteStep]
    norm_num
  have h4 : parse_fare_line "Time" "2 min × $0.10/min" =
      .ok { minutes := some 2, rate_per_minute := some (1/10) } := by
    simp [parse_fare_line, searchMile, searchMinute, reSearch, matchMileAt,
      matchMinuteAt, mileAfterNum, minAfterNum, mileTail, minTail, litCI,
      lowerCh, isWsCh, isNumDot, isDigitCh, digitVal, pyFloatDec, digitsVal,
      minuteStep]
    norm_num
  constructor
  · exact (fare_accumulation_last_nonzero "Distance" "$1.49"
      "1.5 mile × $0.99/mile" "Distance" "$2.02" "2 mile × $1.01/mile"
      _ _ (99/100) (101/100) h1 h2).1 rfl rfl rfl rfl (by norm_num)
  · exact (fare_accumulation_last_nonzero "Time" "$1.49"
      "1.5 min × $0.20/min" "Time" "$2.02" "2 min × $0.10/min"
      _ _ (1/5) (1/10) h3 h4).2 rfl rfl rfl rfl (by norm_num)

theorem pyLinesAux_term (x : List Char)
    (hx : ∀ c ∈ x, c ≠ '\n' ∧ c ≠ '\r') :
    ∀ acc, pyLinesAux (x ++ ['\n']) acc = [acc.reverse ++ x] := by
  induction x with
  | nil =>
    intro acc
    simp [pyLinesAux]
  | cons c t ih =>
    intro acc
    obtain ⟨hc1, hc2⟩ := hx c (List.mem_cons_self c t)
    have ht := fun d hd => hx d (List.mem_cons_of_mem c hd)
    have hstep : pyLinesAux ((c :: t) ++ ['\n']) acc =
        pyLinesAux (t ++ ['\n']) (c :: acc) := by
      simp [pyLinesAux, hc1, hc2]
    rw [hstep, ih ht (c :: acc)]
    simp

theorem pyLinesAux_append_nl :
    ∀ (n : ℕ) (f0 : List Char), f0.length ≤ n → ∀ (rest acc : List Char),
      pyLinesAux (f0 ++ '\n' :: rest) acc =
        pyLinesAux (f0 ++ ['\n']) acc ++ pyLinesAux rest [] := by
  intro n
  induction n with
  | zero =>
    intro f0 h rest acc
    have h0 : f0 = [] := List.eq_nil_of_length_eq_zero (Nat.le_zero.mp h)
    subst h0
    simp [pyLinesAux]
  | succ n ih =>
    intro f0 h rest acc
    cases f0 with
    | nil => simp [pyLinesAux]
    | cons c f1 =>
      simp only [List.length_cons, Nat.add_le_add_iff_right] at h
      by_cases hc : c = '\n'
      · subst hc
        show pyLinesAux ('\n' :: (f1 ++ '\n' :: rest)) acc = _
        rw [show pyLinesAux ('\n' :: (f1 ++ '\n' :: rest)) acc =
            acc.reverse :: pyLinesAux (f1 ++ '\n' :: rest) [] from rfl,
          ih f1 h rest []]
        rfl
      · by_cases hr : c = '\r'
        · subst hr
          cases f1 with
          | nil => simp [pyLinesAux]
          | cons c2 f2 =>
            by_cases hc2 : c2 = '\n'
            · subst hc2
              have h2 : f2.length ≤ n := by
                simp only [List.length_cons] at h
                omega
              show pyLinesAux ('\r' :: '\n' :: (f2 ++ '\n' :: rest)) acc = _
              rw [show pyLinesAux ('\r' :: '\n' :: (f2 ++ '\n' :: rest)) acc =
                  acc.reverse :: pyLinesAux (f2 ++ '\n' :: rest) [] from rfl,
                ih f2 h2 rest []]
              rfl
            · have h2 : (c2 :: f2).length ≤ n := h
              have e1 : pyLinesAux ('\r' :: c2 :: (f2 ++ '\n' :: rest)) acc =
                  acc.reverse :: pyLinesAux (c2 :: (f2 ++ '\n' :: rest)) [] := by
                simp [pyLinesAux, hc2]
              have e2 : pyLinesAux ('\r' :: c2 :: (f2 ++ ['\n'])) acc =
                  acc.reverse :: pyLinesAux (c2 :: (f2 ++ ['\n'])) [] := by
                simp [pyLinesAux, hc2]
              show pyLinesAux ('\r' :: c2 :: (f2 ++ '\n' :: rest)) acc =
                pyLinesAux ('\r' :: c2 :: (f2 ++ ['\n'])) acc ++ pyLinesAux rest []
              rw [e1, e2]
              have hih := ih (c2 :: f2) h2 rest []
              simp only [List.cons_append] at hih
              rw [hih]
              rfl
        · have e1 : pyLinesAux (c :: (f1 ++ '\n' :: rest)) acc =
              pyLinesAux (f1 ++ '\n' :: rest) (c :: acc) := by
            simp [pyLinesAux, hc, hr]
          have e2 : pyLinesAux (c :: (f1 ++ ['\n'])) acc =
              pyLinesAux (f1 ++ ['\n']) (c :: acc) := by
            simp [pyLinesAux, hc, hr]
          show pyLinesAux (c :: (f1 ++ '\n' :: rest)) acc =
            pyLinesAux (c :: (f1 ++ ['\n'])) acc ++ pyLinesAux rest []
          rw [e1, e2]
          exact ih f1 h rest (c :: acc)

theorem mem_fetch_visited_append (f x : List Char)
    (hf : f = [] ∨ ∃ f0, f = f0 ++ ['\n']) (hx0 : x ≠ [])
    (hxs : pyStrip x = x) (hx : ∀ c ∈ x, c ≠ '\n' ∧ c ≠ '\r') :
    x ∈ fetch_visited (append_visited f x) := by
  have hlines : pyLines (append_visited f x) =
      pyLines f ++ [x] := by
    rcases hf with rfl | ⟨f0, rfl⟩
    · show pyLinesAux (x ++ ['\n']) [] = pyLinesAux [] [] ++ [x]
      rw [pyLinesAux_term x hx []]
      simp [pyLinesAux]
    · show pyLinesAux ((f0 ++ ['\n']) ++ x ++ ['\n']) [] = _ ++ [x]
      have e : (f0 ++ ['\n']) ++ x ++ ['\n'] = f0 ++ '\n' :: (x ++ ['\n']) := by
        simp
      rw [e, pyLinesAux_append_nl f0.length f0 (le_refl _) (x ++ ['\n']) [],
        pyLinesAux_term x hx []]
      simp [pyLines]
  unfold fetch_visited
  rw [hlines]
  apply List.mem_filter.mpr
  constructor
  · apply List.mem_map.mpr
    exact ⟨x, by simp, hxs⟩
  · simpa using hx0

/-- C3 counterexample: the claim fails as stated, at the identifier
consisting of the letter a followed by a space: append_visited stores it,
but fetch_visited strips the stored line, so membership of the original
identifier is false. -/
theorem dedup_mark_contains_fails :
    "a ".data ∉ fetch_visited (append_visited [] "a ".data) := by
  decide

/-- C3 amended: for every trip identifier that is nonempty, equal to its
own whitespace strip, and free of line terminators, marking it with
append_visited and then reloading with fetch_visited always finds it
(for any checkpoint file that is empty or newline-terminated, as files
written by append_visited are); and scrape_trip_details returns with the
whole run state unchanged, appending no CSV row and no checkpoint line,
whenever the identifier of its link is in the visited set loaded at
startup. -/
theorem dedup_mark_contains_wellformed :
    (∀ (f x : List Char), (f = [] ∨ ∃ f0, f = f0 ++ ['\n']) → x ≠ [] →
      pyStrip x = x → (∀ c ∈ x, c ≠ '\n' ∧ c ≠ '\r') →
      x ∈ fetch_visited (append_visited f x))
    ∧ (∀ (vf link : List Char) (pd : DetailPage) (csv : List WLRow),
      tripIdOf link ∈ fetch_visited vf →
      scrape_trip_details link pd ⟨fetch_visited vf, csv, vf⟩ =
        .ok ⟨fetch_visited vf, csv, vf⟩) := by
  constructor
  · exact mem_fetch_visited_append
  · intro vf link pd csv hmem
    unfold scrape_trip_details
    simp only [hmem, if_pos]

/-- C3 witness: the amended statement at the identifier abc over an
empty checkpoint file, and at a link whose identifier is already in the
loaded visited set. -/
theorem dedup_mark_contains_wellformed_check :
    "abc".data ∈ fetch_visited (append_visited [] "abc".data)
    ∧ scrape_trip_details "trips/xyz".data {}
        ⟨fetch_visited ("xyz\n".data), [], "xyz\n".data⟩ =
      .ok ⟨fetch_visited ("xyz\n".data), [], "xyz\n".data⟩ := by
  constructor
  · exact dedup_mark_contains_wellformed.1 [] "abc".data (Or.inl rfl)
      (by decide) (by decide) (by decide)
  · exact dedup_mark_contains_wellformed.2 "xyz\n".data "trips/xyz".data {} []
      (by decide)

/-- C10: scrape_trip_details never adds the scraped identifier to the
in-memory visited set; consequently two successful calls in one run on
the same link, whose identifier was not in the set loaded at startup,
each append one CSV row and one checkpoint line. -/
theorem scrape_trip_details_frame :
    ∀ (link : List Char) (pd1 pd2 : DetailPage) (st st1 st2 : RunState),
      tripIdOf link ∉ st.visited →
      scrape_trip_details link pd1 st = .ok st1 →
      scrape_trip_details link pd2 st1 = .ok st2 →
      st1.visited = st.visited ∧ st2.visited = st.visited ∧
      st1.csv.length = st.csv.length + 1 ∧
      st2.csv.length = st.csv.length + 2 ∧
      st1.vfile = st.vfile ++ tripIdOf link ++ ['\n'] ∧
      st2.vfile = st1.vfile ++ tripIdOf link ++ ['\n'] := by
  intro link pd1 pd2 st st1 st2 hnm h1 h2
  unfold scrape_trip_details at h1
  simp only [if_neg hnm] at h1
  cases hagg1 : processItemsAll (zip3 pd1.labels pd1.values pd1.details) with
  | error e => rw [hagg1] at h1; cases h1
  | ok agg1 =>
    rw [hagg1] at h1
    cases h1
    unfold scrape_trip_details at h2
    simp only [if_neg hnm] at h2
    cases hagg2 : processItemsAll (zip3 pd2.labels pd2.values pd2.details) with
    | error e => rw [hagg2] at h2; cases h2
    | ok agg2 =>
      rw [hagg2] at h2
      cases h2
      refine ⟨rfl, rfl, ?_, ?_, rfl, rfl⟩
      · simp
      · simp [append_visited]

/-- C10 witness: two successful calls on the same link against an empty
initial state each append one row and one checkpoint line while the
in-memory visited set stays empty. -/
theorem scrape_trip_details_frame_check :
    ∃ st1 st2 : RunState,
      scrape_trip_details "trips/abc".data {} ⟨[], [], []⟩ = .ok st1 ∧
      scrape_trip_details "trips/abc".data {} st1 = .ok st2 ∧
      st1.visited = [] ∧ st2.visited = [] ∧
      st1.csv.length = 1 ∧ st2.csv.length = 2 ∧
      st1.vfile = "abc\n".data ∧ st2.vfile = "abc\nabc\n".data := by
  obtain ⟨h1, h2, h3, h4, h5, h6⟩ :=
    scrape_trip_details_frame "trips/abc".data {} {} ⟨[], [], []⟩
      ⟨[], [mkWLRow "abc".data {} {}], "abc\n".data⟩
      ⟨[], [mkWLRow "abc".data {} {}, mkWLRow "abc".data {} {}],
        "abc\nabc\n".data⟩
      (by decide) (by rfl) (by rfl)
  exact ⟨_, _, by rfl, by rfl, h1, h2, h3, by simpa using h4,
    by decide, by decide⟩

theorem runSaves_some (batches : List (List ExtractRec))
    (rs : List (List String)) :
    runSaves batches (some rs) =
      some (rs ++ (batches.flatten).map saveCsvRow) := by
  induction batches generalizing rs with
  | nil => simp [runSaves]
  | cons b bs ih =>
    have hstep : save_csv b (some rs) = some (rs ++ b.map saveCsvRow) := by
      by_cases hb : b.isEmpty
      · rw [List.isEmpty_iff] at hb
        subst hb
        simp [save_csv]
      · simp [save_csv, hb]
    show runSaves bs (save_csv b (some rs)) = _
    rw [hstep, ih]
    simp

/-- C4 counterexample: a run of save_csv calls persisting zero records
(here one call with an empty batch) never creates the file, so the
resulting CSV does not consist of a header row plus zero data rows. -/
theorem save_csv_zero_records_no_header :
    runSaves [[]] none = none ∧
      ¬ ∃ rows, runSaves [[]] none = some (csvHEADERS :: rows) := by
  refine ⟨rfl, ?_⟩
  rintro ⟨rows, h⟩
  cases h

/-- C4 amended: for every sequence of save_csv calls persisting a total
of N ≥ 1 trip records to the same absent-at-start path, the resulting
file is exactly one header row followed by the N data rows in order; the
header is the 26 columns of the specification in fixed order; the header
is written only on file creation and every call against an existing file
appends its rows.  (With N = 0 the file is never created.) -/
theorem save_csv_header_once_append :
    (∀ batches : List (List ExtractRec),
      0 < (batches.map List.length).sum →
      runSaves batches none =
        some (csvHEADERS :: (batches.flatten).map saveCsvRow) ∧
      ((batches.flatten).map saveCsvRow).length = (batches.map List.length).sum)
    ∧ csvHEADERS.length = 26 ∧ csvHEADERS = specHeaderColumns
    ∧ (∀ t, (saveCsvRow t).length = 26)
    ∧ (∀ ts rs, save_csv ts (some rs) = some (rs ++ ts.map saveCsvRow)) := by
  refine ⟨?_, by decide, by decide, fun t => by simp [saveCsvRow], ?_⟩
  · intro batches hpos
    constructor
    · induction batches with
      | nil => simp at hpos
      | cons b bs ih =>
        by_cases hb : b.isEmpty
        · rw [List.isEmpty_iff] at hb
          subst hb
          have hpos2 : 0 < (bs.map List.length).sum := by simpa using hpos
          show runSaves bs (save_csv [] none) = _
          have : save_csv [] none = none := rfl
          rw [this, ih hpos2]
          simp
        · show runSaves bs (save_csv b none) = _
          have : save_csv b none = some (csvHEADERS :: b.map saveCsvRow) := by
            simp [save_csv, hb]
          rw [this, runSaves_some]
          simp
    · simp only [List.length_map, List.length_flatten]
  · intro ts rs
    by_cases hb : ts.isEmpty
    · rw [List.isEmpty_iff] at hb
      subst hb
      simp [save_csv]
    · simp [save_csv, hb]

/-- C4 witness: one call persisting one record (the record extracted from
an empty page) creates the file with the header row and one data row. -/
theorem save_csv_header_once_append_check :
    runSaves [[extract_trip_data {}]] none =
      some (csvHEADERS :: [saveCsvRow (extract_trip_data {})]) ∧
    csvHEADERS.length = 26 ∧
    save_csv [extract_trip_data {}] (some [csvHEADERS]) =
      some ([csvHEADERS] ++ [saveCsvRow (extract_trip_data {})]) := by
  refine ⟨?_, save_csv_header_once_append.2.1, ?_⟩
  · have h := (save_csv_header_once_append.1 [[extract_trip_data {}]]
      (by simp)).1
    simpa using h
  · have h := save_csv_header_once_append.2.2.2.2 [extract_trip_data {}]
      [csvHEADERS]
    simpa using h

/-- C5: Walking weeks backward with trip counts 0,0,0,5 stops right
after the third consecutive empty week and never loads the week with 5
trips (for any weeks that would follow the three empty ones); with
counts 0,0,5,0,0,0 the week with 5 trips is processed, the streak resets
to 0 on it (the walk continues exactly as a fresh walk of the remaining
weeks), and the run stops after the three consecutive empty weeks that
follow, whatever lies beyond. -/
theorem orchestrator_empty_streak :
    visitedWeeks [0, 0, 0, 5] = [0, 0, 0]
    ∧ 5 ∉ visitedWeeks [0, 0, 0, 5]
    ∧ (∀ rest, weekLoopAux (0 :: 0 :: 0 :: rest) 0 = ([0, 0, 0], 3))
    ∧ visitedWeeks [0, 0, 5, 0, 0, 0] = [0, 0, 5, 0, 0, 0]
    ∧ (∀ rest, weekLoopAux (0 :: 0 :: 5 :: rest) 0 =
        (0 :: 0 :: 5 :: (weekLoopAux rest 0).1, (weekLoopAux rest 0).2))
    ∧ (∀ rest, visitedWeeks ([0, 0, 5, 0, 0, 0] ++ rest) = [0, 0, 5, 0, 0, 0]) := by
  refine ⟨by decide, by decide, fun rest => rfl, by decide, fun rest => rfl,
    fun rest => rfl⟩

theorem forwardLoopAux_le (trips : ℤ → ℕ) (now : ℤ) :
    ∀ (fuel : ℕ) (wd : ℤ) (streak : ℕ) (d : ℤ),
      d ∈ forwardLoopAux trips now fuel wd streak → d ≤ now := by
  intro fuel
  induction fuel with
  | zero =>
    intro wd streak d hd
    simp [forwardLoopAux] at hd
  | succ n ih =>
    intro wd streak d hd
    by_cases h1 : wd > now
    · simp [forwardLoopAux, h1] at hd
    · have hle : wd ≤ now := not_lt.mp h1
      simp only [forwardLoopAux, if_neg h1] at hd
      split at hd <;> (try split at hd) <;> (try split at hd) <;>
        first
          | (rw [List.mem_singleton] at hd
             exact hd ▸ hle)
          | (cases List.mem_cons.mp hd with
             | inl h => exact h ▸ hle
             | inr hmem => exact ih _ _ d hmem)

/-- C6: In the forward-walking variant no week with cursor strictly
after the present date is ever loaded: every week cursor the walk
processes satisfies cursor ≤ now, and starting at a cursor already past
the present date the walk terminates at once, processing nothing. -/
theorem forward_walk_never_future :
    (∀ (trips : ℤ → ℕ) (now wd : ℤ) (streak : ℕ) (d : ℤ),
      d ∈ forwardLoop trips now wd streak → d ≤ now)
    ∧ (∀ (trips : ℤ → ℕ) (now wd : ℤ) (streak : ℕ), wd > now →
      forwardLoop trips now wd streak = []) := by
  constructor
  · intro trips now wd streak d hd
    exact forwardLoopAux_le trips now _ wd streak d hd
  · intro trips now wd streak h
    simp [forwardLoop, forwardLoopAux, h]

/-- C6 witness: with no trips anywhere, starting at cursor 86 with the
present date at 100, the walk loads cursors 86, 93, 100 only, all at
most 100, and starting at 107 it loads nothing. -/
theorem forward_walk_never_future_check :
    (86 : ℤ) ∈ forwardLoop (fun _ => 0) 100 86 0
    ∧ (86 : ℤ) ≤ 100
    ∧ forwardLoop (fun _ => 0) 100 107 0 = [] := by
  refine ⟨by decide, ?_, ?_⟩
  · exact forward_walk_never_future.1 (fun _ => 0) 100 86 0 86 (by decide)
  · exact forward_walk_never_future.2 (fun _ => 0) 100 107 0 (by decide)

/-- C7: The absolute navigation range formatter renders the week of
Monday 2024-07-01 exactly as the string Jul 1, 2024 en dash Jul 8, 2024,
and in general renders any Monday m as the range string of m and m plus
7 days (inclusive Monday, exclusive following Monday). -/
theorem format_week_range_contract :
    format_week_range ⟨2024, 7, 1⟩ = "Jul 1, 2024 – Jul 8, 2024"
    ∧ ∀ m : PyDate, format_week_range m = specRangeString m (addDaysPy 7 m) := by
  constructor
  · rfl
  · intro m
    simp [format_week_range, specRangeString, String.append_assoc]

theorem reSearch_nil (f : List Char → Option α) : reSearch f [] = f [] := rfl

theorem durAt_nil : durAt [] = none := rfl

/-- C8: A trip-detail page with no leaf text containing the duration
pattern and no leaf text matching the points pattern extracts to
durationMin 0 and points 0 without failing; and the extractor on a page
with no recognizable content at all yields every field at its zero or
empty default (extraction is a total function and never aborts the
record). -/
theorem extract_trip_data_defaults :
    (∀ p : TripPage,
      (∀ t ∈ p.leafTexts, reSearch durAt (pyStrip t) = none) →
      (∀ t ∈ p.leafTexts, pointsFull t = false) →
      (extract_trip_data p).durationMin = "0".data ∧
      (extract_trip_data p).points = "0".data)
    ∧ extract_trip_data {} =
      { date := [], time := [], rideType := [], distancePay := "0".data,
        timePay := "0".data, surge := "0".data, promotion := "0".data,
        base := "0".data, fare := "0".data, tip := "0".data,
        minFare := "0".data, waitTime := "0".data, regionFee := "0".data,
        airportFee := "0".data, insuranceFee := "0".data,
        uberFee := "0".data, points := "0".data, city := [], pickup := [],
        dropoff := [], distance := [], durationMin := "0".data,
        perMile := "0".data, perMin := "0".data, totalEarnings := "0".data,
        customerFare := "0".data } := by
  constructor
  · intro p h1 h2
    constructor
    · simp only [extract_trip_data]
      cases hf : p.leafTexts.find?
          (fun t => containsCS "min".data t && containsCS "sec".data t) with
      | none => simp [hf, reSearch_nil, durAt_nil]
      | some t0 =>
        have ht0 : t0 ∈ p.leafTexts := List.mem_of_find?_eq_some hf
        simp [hf, h1 t0 ht0]
    · simp only [extract_trip_data]
      have hf : p.leafTexts.find? pointsFull = none :=
        List.find?_eq_none.mpr (fun t ht => by simp [h2 t ht])
      simp [hf]
  · decide

/-- C8 witness: a page whose single leaf text mentions min and sec but
matches neither the duration nor the points pattern still extracts
durationMin 0 and points 0. -/
theorem extract_trip_data_defaults_check :
    (extract_trip_data
        { leafTexts := ["hello min sec world".data] }).durationMin = "0".data ∧
    (extract_trip_data
        { leafTexts := ["hello min sec world".data] }).points = "0".data := by
  exact extract_trip_data_defaults.1
    { leafTexts := ["hello min sec world".data] } (by decide) (by decide)

/-- C9: The start-date prompt parses nonempty stripped input with the
seven accepted formats in order, taking the first that parses and
falling back to today when none does; the chosen date is then snapped by
get_monday to the Monday of its week (weekday 0, at most six days back);
each accepted format is exercised on a concrete rendering of
July 1 2024 (the year-free format assuming the current year), and an
unparseable input falls back to today. -/
theorem start_date_prompt_contract :
    (∀ (inp : List Char) (now : PyDate), inp ≠ [] →
      startDate inp now = (tryParseStart (pyStrip inp) now.year).getD now)
    ∧ (∀ (inp : List Char) (now : PyDate),
      startMonday inp now = get_monday (toordinal (startDate inp now)))
    ∧ (∀ n : ℤ, pyWeekday (get_monday n) = 0 ∧ get_monday n ≤ n ∧
        n - get_monday n < 7)
    ∧ startDate "Jul 1, 2024".data ⟨2025, 3, 14⟩ = ⟨2024, 7, 1⟩
    ∧ startDate "Jul 1 2024".data ⟨2025, 3, 14⟩ = ⟨2024, 7, 1⟩
    ∧ startDate "Jul 1".data ⟨2025, 3, 14⟩ = ⟨2025, 7, 1⟩
    ∧ startDate "2024-07-01".data ⟨2025, 3, 14⟩ = ⟨2024, 7, 1⟩
    ∧ startDate "07/01/2024".data ⟨2025, 3, 14⟩ = ⟨2024, 7, 1⟩
    ∧ startDate "07/01/24".data ⟨2025, 3, 14⟩ = ⟨2024, 7, 1⟩
    ∧ startDate "07-01-2024".data ⟨2025, 3, 14⟩ = ⟨2024, 7, 1⟩
    ∧ startDate "gibberish".data ⟨2025, 3, 14⟩ = ⟨2025, 3, 14⟩ := by
  refine ⟨?_, fun inp now => rfl, ?_, by decide, by decide, by decide,
    by decide, by decide, by decide, by decide, by decide⟩
  · intro inp now hne
    unfold startDate
    rw [if_neg (by simpa using hne)]
    cases h : tryParseStart (pyStrip inp) now.year <;> simp [h]
  · intro n
    simp only [get_monday, pyWeekday]
    omega

/-- C9 witness: the format-loop equation evaluated at a concrete
nonempty input. -/
theorem start_date_prompt_contract_check :
    startDate "Jul 1, 2024".data ⟨2025, 3, 14⟩ =
      (tryParseStart (pyStrip "Jul 1, 2024".data) 2025).getD ⟨2025, 3, 14⟩ := by
  exact start_date_prompt_contract.1 "Jul 1, 2024".data ⟨2025, 3, 14⟩
    (by decide)

end UberAnalysis
